import Mathlib

/-!
Verification of the blobs-actor accounting engine (`fendermint/actors/blobs/src/state.rs`).

The Rust state machine is embedded shallowly: `HashMap`/`BTreeMap` become
association lists, `BigInt` becomes `Int`, `ChainEpoch` (an `i64`) becomes `Int`
with the source's explicit `as u64` casts modelled by reduction modulo `2^64`,
and `TokenAmount` becomes its `atto` value as an `Int`.  Every operation of the
engine is a function from a state (plus arguments) to a result together with
the state as mutated in memory when the function returns — on the error paths
the mutations the Rust code has already applied to `&mut self` are kept, which
is exactly what the in-process callers (the auto-debit tick) observe.
-/

set_option maxHeartbeats 1600000

deriving instance DecidableEq for Except

namespace BlobsActor

/-- Robust actor addresses, content hashes and Iroh node ids are opaque keys. -/
abbrev Addr := Nat

abbrev Hash := Nat

abbrev PublicKey := Nat

/-- `ChainEpoch` is an `i64` in the source; arithmetic on it never overflows in
the embedding, only the explicit `as u64` casts are modelled (see `asU64`). -/
abbrev Epoch := Int

/-- `TokenAmount`, represented by its `atto` value. -/
abbrev TokenAmount := Int

/-- The value of `x as u64` for an `i64` value `x`: reduction modulo `2^64`. -/
def asU64 (x : Int) : Int := x % (2 : Int) ^ 64

/-- The error kinds of `ActorError` used by the engine. -/
inductive ErrorKind where
  | illegalArgument
  | forbidden
  | notFound
  | insufficientFunds
  | illegalState
deriving DecidableEq, Repr

/-- `SubscriptionId`: either the default id or an opaque byte key. -/
inductive SubscriptionId where
  | default
  | key (bytes : List Nat)
deriving DecidableEq, Repr

/-- `BlobStatus`: the ingestion lifecycle states. -/
inductive BlobStatus where
  | added
  | pending
  | resolved
  | failed
deriving DecidableEq, Repr

/-- `CreditApproval`: a delegation from one account to another. -/
structure CreditApproval where
  limit : Option Int
  expiry : Option Epoch
  used : Int
deriving DecidableEq, Repr

/-- `Subscription`: one subscription of a subscriber to a blob. -/
structure Subscription where
  added : Epoch
  expiry : Epoch
  autoRenew : Bool
  source : PublicKey
  delegate : Option (Addr × Addr)
  failed : Bool
deriving DecidableEq, Repr

/-- `SubscriptionGroup`: the subscriptions of one subscriber to one blob, by id. -/
structure SubscriptionGroup where
  subscriptions : List (SubscriptionId × Subscription)
deriving DecidableEq, Repr

/-- `Account`: per-address balances, usage and approvals. -/
structure Account where
  capacityUsed : Int
  creditFree : Int
  creditCommitted : Int
  lastDebitEpoch : Epoch
  approvals : List (Addr × List (Addr × CreditApproval))
deriving DecidableEq, Repr

/-- `Blob`: per-hash metadata and subscribers. -/
structure Blob where
  size : Nat
  metadataHash : Hash
  subscribers : List (Addr × SubscriptionGroup)
  status : BlobStatus
deriving DecidableEq, Repr

/-- `ExpiryKey`: the `(hash, id)` key used inside the expiry index. -/
structure ExpiryKey where
  hash : Hash
  id : SubscriptionId
deriving DecidableEq, Repr

/-- The whole actor state (`State` in the source). -/
structure State where
  capacityTotal : Int
  capacityUsed : Int
  creditSold : Int
  creditCommitted : Int
  creditDebited : Int
  creditDebitRate : Nat
  accounts : List (Addr × Account)
  blobs : List (Hash × Blob)
  expiries : List (Epoch × List (Addr × List (ExpiryKey × Bool)))
  added : List (Hash × List (Addr × SubscriptionId × PublicKey))
  pending : List (Hash × List (Addr × SubscriptionId × PublicKey))
deriving DecidableEq, Repr

/-- The minimum epoch duration a blob can be stored (`MIN_TTL`). -/
def MIN_TTL : Epoch := 3600

/-- The rolling epoch duration used for non-expiring blobs (`AUTO_TTL`). -/
def AUTO_TTL : Epoch := 3600

section AssocList

variable {α β : Type} [DecidableEq α]

/-- Map lookup on an association list (first match). -/
def lookupA (k : α) : List (α × β) → Option β
  | [] => none
  | p :: rest => if p.1 = k then some p.2 else lookupA k rest

/-- Map insert on an association list: replace in place, or append. -/
def insertA (k : α) (v : β) : List (α × β) → List (α × β)
  | [] => [(k, v)]
  | p :: rest => if p.1 = k then (k, v) :: rest else p :: insertA k v rest

/-- Map removal on an association list. -/
def eraseA (k : α) : List (α × β) → List (α × β)
  | [] => []
  | p :: rest => if p.1 = k then rest else p :: eraseA k rest

/-- Ordered-map insert for the `BTreeMap` keyed by epochs: replace in place if
the key exists, otherwise insert at the sorted position. -/
def insertSorted (k : Int) (v : β) : List (Int × β) → List (Int × β)
  | [] => [(k, v)]
  | p :: rest =>
    if k < p.1 then (k, v) :: p :: rest
    else if p.1 = k then (k, v) :: rest
    else p :: insertSorted k v rest

end AssocList

/-- `HashSet::insert` on a list-backed set. -/
def insertSet {α : Type} [DecidableEq α] (x : α) (l : List α) : List α :=
  if x ∈ l then l else x :: l

/-- `HashSet::remove` on a list-backed set. -/
def removeSet {α : Type} [DecidableEq α] (x : α) (l : List α) : List α :=
  l.filter (fun y => y ≠ x)

/-- Maximum of a list of epochs, `none` when empty. -/
def maxList : List Int → Option Int
  | [] => none
  | x :: xs =>
    match maxList xs with
    | none => some x
    | some m => some (max x m)

/-- Minimum of a list of epochs, `none` when empty. -/
def minList : List Int → Option Int
  | [] => none
  | x :: xs =>
    match minList xs with
    | none => some x
    | some m => some (min x m)

/-- Modelled from the spec: `Account::new(credit_free, current_epoch)` lives in
the shared state module `fendermint_actor_blobs_shared::state`, which is not
among the sources; per the data-model section a fresh account has the given
free credit, zero committed credit and capacity, its `last_debit_epoch` at the
creation epoch, and no approvals. -/
def Account.new (credits : Int) (epoch : Epoch) : Account :=
  { capacityUsed := 0
    creditFree := credits
    creditCommitted := 0
    lastDebitEpoch := epoch
    approvals := [] }

/-- Modelled from the spec: `SubscriptionGroup::max_expiries(id, new_expiry)`
lives in the shared state module, which is not among the sources.  Per §4.12 the
first component is the maximum expiry over the whole group; the second is the
maximum after the entry for `id` takes the value `new_expiry` — a non-positive
forced value (such as the `Some(0)` passed by delete and finalize) removes the
contribution — and is `none` when nothing remains. -/
def SubscriptionGroup.maxExpiries (g : SubscriptionGroup) (id : SubscriptionId)
    (newExpiry : Option Epoch) : Option Epoch × Option Epoch :=
  let before := maxList (g.subscriptions.map (fun p => p.2.expiry))
  let others := (g.subscriptions.filter (fun p => p.1 ≠ id)).map (fun p => p.2.expiry)
  let contrib :=
    match newExpiry with
    | some e => if 0 < e then e :: others else others
    | none => others
  (before, maxList contrib)

/-- Modelled from the spec: `SubscriptionGroup::is_min_added(id)` lives in the
shared state module, which is not among the sources.  Per §4.10 it reports
whether `id`'s subscription has the earliest `added` epoch in its group, and
the earliest `added` epoch among the other subscriptions. -/
def SubscriptionGroup.isMinAdded (g : SubscriptionGroup) (id : SubscriptionId) :
    Except ErrorKind (Bool × Option Epoch) :=
  match lookupA id g.subscriptions with
  | none => .error .notFound
  | some sub =>
    let others := (g.subscriptions.filter (fun p => p.1 ≠ id)).map (fun p => p.2.added)
    .ok (others.all (fun a => sub.added ≤ a), minList others)

/-- The approval lookup used by all operations: first the approval keyed by the
origin itself (valid for any caller), then the one keyed by the caller.  The
returned address is the inner key the approval is stored under, so that updates
can be written back to the same slot. -/
def findApproval (acct : Account) (origin caller : Addr) :
    Option (Addr × CreditApproval) :=
  match lookupA origin acct.approvals with
  | none => none
  | some inner =>
    match lookupA origin inner with
    | some ap => some (origin, ap)
    | none =>
      match lookupA caller inner with
      | some ap => some (caller, ap)
      | none => none

/-- Write an updated approval back into the slot `findApproval` found it in. -/
def Account.updateApproval (acct : Account) (origin innerKey : Addr)
    (f : CreditApproval → CreditApproval) : Account :=
  match lookupA origin acct.approvals with
  | none => acct
  | some inner =>
    match lookupA innerKey inner with
    | none => acct
    | some ap =>
      { acct with approvals := insertA origin (insertA innerKey (f ap) inner) acct.approvals }

/-- Replace the subscriber's account entry; every operation exit writes the
borrowed account back through this. -/
def State.putAccount (s : State) (k : Addr) (a : Account) : State :=
  { s with accounts := insertA k a s.accounts }

/-- `State::new`. -/
def State.new (capacity : Nat) (creditDebitRate : Nat) : State :=
  { capacityTotal := (capacity : Int)
    capacityUsed := 0
    creditSold := 0
    creditCommitted := 0
    creditDebited := 0
    creditDebitRate := creditDebitRate
    accounts := []
    blobs := []
    expiries := []
    added := []
    pending := [] }

/-- `accept_ttl`. -/
def acceptTtl (ttl : Option Epoch) : Except ErrorKind (Epoch × Bool) :=
  let p := match ttl with
    | some t => (t, false)
    | none => (AUTO_TTL, true)
  if p.1 < MIN_TTL then .error .illegalArgument else .ok p

/-- `ensure_enough_credits`. -/
def ensureEnoughCredits (creditFree requiredCredit : Int) : Except ErrorKind Unit :=
  if requiredCredit ≤ creditFree then .ok () else .error .insufficientFunds

/-- `ensure_delegated_credit`. -/
def ensureDelegatedCredit (epoch : Epoch) (requiredCredit : Int)
    (delegation : Option CreditApproval) : Except ErrorKind Unit :=
  match delegation with
  | none => .ok ()
  | some ap =>
    match ap.limit with
    | some limit =>
      if limit - ap.used < requiredCredit then .error .insufficientFunds
      else
        match ap.expiry with
        | some ex => if ex ≤ epoch then .error .forbidden else .ok ()
        | none => .ok ()
    | none =>
      match ap.expiry with
      | some ex => if ex ≤ epoch then .error .forbidden else .ok ()
      | none => .ok ()

/-- `ensure_credit`. -/
def ensureCredit (epoch : Epoch) (creditFree requiredCredit : Int)
    (delegation : Option CreditApproval) : Except ErrorKind Unit :=
  match ensureEnoughCredits creditFree requiredCredit with
  | .error e => .error e
  | .ok _ => ensureDelegatedCredit epoch requiredCredit delegation

/-- `ensure_credit_or_buy`: on success returns the new `credit_free`, the new
`credit_sold` and the unspent tokens. -/
def ensureCreditOrBuy (creditFree creditSold creditRequired : Int)
    (tokensReceived : TokenAmount) (rate : Nat) (epoch : Epoch)
    (delegation : Option CreditApproval) : Except ErrorKind (Int × Int × TokenAmount) :=
  if tokensReceived ≠ 0 then
    match delegation with
    | some _ => .error .illegalArgument
    | none =>
      if creditFree < creditRequired then
        let creditsNeeded := creditRequired - creditFree
        let tokensNeeded := creditsNeeded / (rate : Int)
        if tokensNeeded ≤ tokensReceived then
          .ok (creditFree + creditsNeeded, creditSold + creditsNeeded, tokensReceived - tokensNeeded)
        else .error .insufficientFunds
      else .ok (creditFree, creditSold, 0)
  else
    match ensureCredit epoch creditFree creditRequired delegation with
    | .error e => .error e
    | .ok _ => .ok (creditFree, creditSold, 0)

/-- `update_expiry_index`. -/
def updateExpiryIndex (m : List (Epoch × List (Addr × List (ExpiryKey × Bool))))
    (subscriber : Addr) (hash : Hash) (id : SubscriptionId)
    (addEntry : Option (Epoch × Bool)) (removeEntry : Option Epoch) :
    List (Epoch × List (Addr × List (ExpiryKey × Bool))) :=
  let m :=
    match addEntry with
    | some (e, autoRenew) =>
      let entry := (lookupA e m).getD []
      let subs := (lookupA subscriber entry).getD []
      insertSorted e (insertA subscriber (insertA ⟨hash, id⟩ autoRenew subs) entry) m
    | none => m
  match removeEntry with
  | some e =>
    match lookupA e m with
    | none => m
    | some entry =>
      let entry2 :=
        match lookupA subscriber entry with
        | none => entry
        | some subs =>
          let subs2 := eraseA (⟨hash, id⟩ : ExpiryKey) subs
          if subs2 = [] then eraseA subscriber entry else insertA subscriber subs2 entry
      if entry2 = [] then eraseA e m else insertSorted e entry2 m
  | none => m

/-- `State::buy_credit`. -/
def State.buyCredit (s : State) (recipient : Addr) (amount : TokenAmount)
    (epoch : Epoch) : Except ErrorKind Account × State :=
  if amount < 0 then (.error .illegalArgument, s)
  else
    let credits := (s.creditDebitRate : Int) * amount
    if s.capacityTotal - s.capacityUsed = 0 then (.error .forbidden, s)
    else
      let s := { s with creditSold := s.creditSold + credits }
      let acct :=
        match lookupA recipient s.accounts with
        | some a => { a with creditFree := a.creditFree + credits }
        | none => Account.new credits epoch
      (.ok acct, s.putAccount recipient acct)

/-- `State::approve_credit`. -/
def State.approveCredit (s : State) (fromAddr toAddr : Addr)
    (requireCaller : Option Addr) (epoch : Epoch) (limit : Option Nat)
    (ttl : Option Epoch) : Except ErrorKind CreditApproval × State :=
  let limitI : Option Int := limit.map (fun n => Int.ofNat n)
  if ttl.any (fun t => decide (t < MIN_TTL)) then
    (.error .illegalArgument, s)
  else
    let expiry := ttl.map (fun t => t + epoch)
    let acct := (lookupA fromAddr s.accounts).getD (Account.new 0 epoch)
    let caller := requireCaller.getD toAddr
    let inner := (lookupA toAddr acct.approvals).getD []
    let approval := (lookupA caller inner).getD { limit := limitI, expiry := expiry, used := 0 }
    if limitI.any (fun l => decide (l < approval.used)) then
      let acct1 := { acct with approvals := insertA toAddr (insertA caller approval inner) acct.approvals }
      (.error .illegalArgument, s.putAccount fromAddr acct1)
    else
      let approval2 := { approval with limit := limitI, expiry := expiry }
      let acct2 := { acct with approvals := insertA toAddr (insertA caller approval2 inner) acct.approvals }
      (.ok approval2, s.putAccount fromAddr acct2)

/-- `State::revoke_credit`. -/
def State.revokeCredit (s : State) (fromAddr toAddr : Addr)
    (requireCaller : Option Addr) : Except ErrorKind Unit × State :=
  match lookupA fromAddr s.accounts with
  | none => (.error .notFound, s)
  | some acct =>
    let caller := requireCaller.getD toAddr
    match lookupA toAddr acct.approvals with
    | none => (.ok (), s)
    | some inner =>
      let inner2 := eraseA caller inner
      let approvals2 :=
        if inner2 = [] then eraseA toAddr acct.approvals
        else insertA toAddr inner2 acct.approvals
      (.ok (), s.putAccount fromAddr { acct with approvals := approvals2 })

/-- `State::set_blob_pending`. -/
def State.setBlobPending (s : State) (subscriber : Addr) (hash : Hash)
    (id : SubscriptionId) (source : PublicKey) : Except ErrorKind Unit × State :=
  match lookupA hash s.blobs with
  | none => (.ok (), s)
  | some blob =>
    (.ok (), { s with
      blobs := insertA hash { blob with status := .pending } s.blobs
      pending := insertA hash [(subscriber, id, source)] s.pending
      added := eraseA hash s.added })

/-- The update of the blob status and the `added` index shared by the
existing-blob branches of `add_blob` (reset to `Added` unless `Resolved`). -/
def addBlobTouchAdded (blob : Blob) (hash : Hash) (subscriber : Addr)
    (id : SubscriptionId) (source : PublicKey)
    (addedIdx : List (Hash × List (Addr × SubscriptionId × PublicKey))) :
    Blob × List (Hash × List (Addr × SubscriptionId × PublicKey)) :=
  if blob.status = .resolved then (blob, addedIdx)
  else
    let entry :=
      match lookupA hash addedIdx with
      | some sources => insertSet (subscriber, id, source) sources
      | none => [(subscriber, id, source)]
    ({ blob with status := .added }, insertA hash entry addedIdx)

/-- The common tail of `add_blob`: the proactive debit, the capacity and
credit commit, and the approval usage update. -/
def State.addBlobCommit (s : State) (subscriber : Addr) (epoch : Epoch)
    (acct : Account) (deleg : Option (Addr × Addr))
    (newCapacity newAccountCapacity creditRequired : Int) (sub : Subscription)
    (tokensUnspent : TokenAmount) :
    Except ErrorKind (Subscription × TokenAmount) × State :=
  let debit := asU64 (epoch - acct.lastDebitEpoch) * acct.capacityUsed
  let s := { s with
    creditDebited := s.creditDebited + debit
    creditCommitted := s.creditCommitted - debit + creditRequired
    capacityUsed := s.capacityUsed + newCapacity }
  let acct := { acct with
    lastDebitEpoch := epoch
    capacityUsed := acct.capacityUsed + newAccountCapacity
    creditCommitted := acct.creditCommitted - debit + creditRequired
    creditFree := acct.creditFree - creditRequired }
  let acct :=
    match deleg with
    | some (dOrigin, innerKey) =>
      acct.updateApproval dOrigin innerKey
        (fun ap => { ap with used := ap.used + creditRequired })
    | none => acct
  (.ok (sub, tokensUnspent), s.putAccount subscriber acct)

/-- `State::add_blob`. -/
def State.addBlob (s : State) (origin caller subscriber : Addr) (epoch : Epoch)
    (hash metadataHash : Hash) (id : SubscriptionId) (size : Nat)
    (ttl : Option Epoch) (source : PublicKey) (tokensReceived : TokenAmount) :
    Except ErrorKind (Subscription × TokenAmount) × State :=
  match acceptTtl ttl with
  | .error e => (.error e, s)
  | .ok (ttlv, autoRenew) =>
    let acct := (lookupA subscriber s.accounts).getD (Account.new 0 epoch)
    let delegRes : Except ErrorKind (Option (Addr × CreditApproval)) :=
      if origin = subscriber then .ok none
      else
        match findApproval acct origin caller with
        | none => .error .forbidden
        | some (k, ap) => .ok (some (k, ap))
    match delegRes with
    | .error e => (.error e, s.putAccount subscriber acct)
    | .ok deleg =>
      let sizeI : Int := (size : Int)
      let expiry := epoch + ttlv
      let delegate : Option (Addr × Addr) := deleg.map (fun _ => (origin, caller))
      let delegKeys : Option (Addr × Addr) := deleg.map (fun d => (origin, d.1))
      match lookupA hash s.blobs with
      | some blob =>
        match lookupA subscriber blob.subscribers with
        | some group =>
          let me := group.maxExpiries id (some expiry)
          let refund : Int :=
            match me.1 with
            | some ge => if ge < acct.lastDebitEpoch then asU64 (epoch - ge) * sizeI else 0
            | none => 0
          let s := { s with
            creditDebited := s.creditDebited - refund
            creditCommitted := s.creditCommitted + refund }
          let acct := { acct with creditCommitted := acct.creditCommitted + refund }
          let nge := (me.2).getD 0
          let creditRequired : Int :=
            match me.1 with
            | some ge => asU64 (nge - max ge epoch) * sizeI
            | none => asU64 (nge - epoch) * sizeI
          match ensureCreditOrBuy acct.creditFree s.creditSold creditRequired
              tokensReceived s.creditDebitRate epoch (deleg.map (fun d => d.2)) with
          | .error e => (.error e, s.putAccount subscriber acct)
          | .ok (free2, sold2, tokensUnspent) =>
            let s := { s with creditSold := sold2 }
            let acct := { acct with creditFree := free2 }
            match lookupA id group.subscriptions with
            | some sub0 =>
              let expiries2 :=
                if expiry ≠ sub0.expiry then
                  updateExpiryIndex s.expiries subscriber hash id
                    (some (expiry, autoRenew)) (some sub0.expiry)
                else s.expiries
              let sub := { sub0 with
                expiry := expiry
                autoRenew := autoRenew
                source := source
                delegate := delegate
                failed := false }
              let group2 := { group with subscriptions := insertA id sub group.subscriptions }
              let blob2 := { blob with subscribers := insertA subscriber group2 blob.subscribers }
              let touched := addBlobTouchAdded blob2 hash subscriber id source s.added
              let s := { s with
                blobs := insertA hash touched.1 s.blobs
                expiries := expiries2
                added := touched.2 }
              s.addBlobCommit subscriber epoch acct delegKeys 0 0 creditRequired sub tokensUnspent
            | none =>
              let sub : Subscription := { added := epoch, expiry := expiry, autoRenew := autoRenew, source := source, delegate := delegate, failed := false }
              let group2 := { group with subscriptions := insertA id sub group.subscriptions }
              let blob2 := { blob with subscribers := insertA subscriber group2 blob.subscribers }
              let expiries2 := updateExpiryIndex s.expiries subscriber hash id
                (some (expiry, autoRenew)) none
              let touched := addBlobTouchAdded blob2 hash subscriber id source s.added
              let s := { s with
                blobs := insertA hash touched.1 s.blobs
                expiries := expiries2
                added := touched.2 }
              s.addBlobCommit subscriber epoch acct delegKeys 0 0 creditRequired sub tokensUnspent
        | none =>
          let creditRequired := asU64 ttlv * sizeI
          match ensureCreditOrBuy acct.creditFree s.creditSold creditRequired
              tokensReceived s.creditDebitRate epoch (deleg.map (fun d => d.2)) with
          | .error e => (.error e, s.putAccount subscriber acct)
          | .ok (free2, sold2, tokensUnspent) =>
            let s := { s with creditSold := sold2 }
            let acct := { acct with creditFree := free2 }
            let sub : Subscription := { added := epoch, expiry := expiry, autoRenew := autoRenew, source := source, delegate := delegate, failed := false }
            let blob2 := { blob with subscribers := insertA subscriber ⟨[(id, sub)]⟩ blob.subscribers }
            let expiries2 := updateExpiryIndex s.expiries subscriber hash id
              (some (expiry, autoRenew)) none
            let touched := addBlobTouchAdded blob2 hash subscriber id source s.added
            let s := { s with
              blobs := insertA hash touched.1 s.blobs
              expiries := expiries2
              added := touched.2 }
            s.addBlobCommit subscriber epoch acct delegKeys 0 sizeI creditRequired sub tokensUnspent
      | none =>
        if s.capacityTotal - s.capacityUsed < sizeI then
          (.error .forbidden, s.putAccount subscriber acct)
        else
          let creditRequired := asU64 ttlv * sizeI
          match ensureCreditOrBuy acct.creditFree s.creditSold creditRequired
              tokensReceived s.creditDebitRate epoch (deleg.map (fun d => d.2)) with
          | .error e => (.error e, s.putAccount subscriber acct)
          | .ok (free2, sold2, tokensUnspent) =>
            let s := { s with creditSold := sold2 }
            let acct := { acct with creditFree := free2 }
            let sub : Subscription := { added := epoch, expiry := expiry, autoRenew := autoRenew, source := source, delegate := delegate, failed := false }
            let blob2 : Blob := { size := size, metadataHash := metadataHash, subscribers := [(subscriber, ⟨[(id, sub)]⟩)], status := .added }
            let expiries2 := updateExpiryIndex s.expiries subscriber hash id
              (some (expiry, autoRenew)) none
            let s := { s with
              blobs := insertA hash blob2 s.blobs
              expiries := expiries2
              added := insertA hash [(subscriber, id, source)] s.added }
            s.addBlobCommit subscriber epoch acct delegKeys sizeI sizeI creditRequired sub tokensUnspent

/-- `State::renew_blob`. -/
def State.renewBlob (s : State) (subscriber : Addr) (epoch : Epoch)
    (hash : Hash) (id : SubscriptionId) : Except ErrorKind Account × State :=
  let acct := (lookupA subscriber s.accounts).getD (Account.new 0 epoch)
  match lookupA hash s.blobs with
  | none => (.error .notFound, s.putAccount subscriber acct)
  | some blob =>
    if blob.status = .failed then (.error .illegalState, s.putAccount subscriber acct)
    else
      match lookupA subscriber blob.subscribers with
      | none => (.error .forbidden, s.putAccount subscriber acct)
      | some group =>
        let expiry := epoch + AUTO_TTL
        let me := group.maxExpiries id (some expiry)
        match lookupA id group.subscriptions with
        | none => (.error .notFound, s.putAccount subscriber acct)
        | some sub =>
          let delegRes : Except ErrorKind (Option (Addr × Addr × CreditApproval)) :=
            match sub.delegate with
            | none => .ok none
            | some (dOrigin, dCaller) =>
              match findApproval acct dOrigin dCaller with
              | none => .error .forbidden
              | some (k, ap) => .ok (some (dOrigin, k, ap))
          match delegRes with
          | .error e => (.error e, s.putAccount subscriber acct)
          | .ok deleg =>
            let ge := (me.1).getD 0
            let sizeI : Int := (blob.size : Int)
            let refund : Int :=
              if ge < acct.lastDebitEpoch then asU64 (acct.lastDebitEpoch - ge) * sizeI else 0
            let s := { s with
              creditDebited := s.creditDebited - refund
              creditCommitted := s.creditCommitted + refund }
            let acct := { acct with creditCommitted := acct.creditCommitted + refund }
            let nge := (me.2).getD 0
            let creditRequired := asU64 (nge - max ge acct.lastDebitEpoch) * sizeI
            match ensureCredit epoch acct.creditFree creditRequired (deleg.map (fun d => d.2.2)) with
            | .error e => (.error e, s.putAccount subscriber acct)
            | .ok _ =>
              let expiries2 :=
                if expiry ≠ sub.expiry then
                  updateExpiryIndex s.expiries subscriber hash id
                    (some (expiry, sub.autoRenew)) (some sub.expiry)
                else s.expiries
              let subUpd := { sub with expiry := expiry }
              let groupUpd := { group with subscriptions := insertA id subUpd group.subscriptions }
              let blobUpd := { blob with subscribers := insertA subscriber groupUpd blob.subscribers }
              let s := { s with
                blobs := insertA hash blobUpd s.blobs
                expiries := expiries2
                creditCommitted := s.creditCommitted + creditRequired }
              let acct := { acct with
                creditCommitted := acct.creditCommitted + creditRequired
                creditFree := acct.creditFree - creditRequired }
              let acct :=
                match deleg with
                | some (dOrigin, k, _) =>
                  acct.updateApproval dOrigin k
                    (fun ap => { ap with used := ap.used + creditRequired })
                | none => acct
              (.ok acct, s.putAccount subscriber acct)

/-- The debit-or-refund step of `delete_blob`: advance the account debit up to
`min(group_expiry, current_epoch)`, or refund the charge past the group expiry. -/
def deleteDebit (s : State) (acct : Account) (ge epoch : Epoch) (sizeI : Int) :
    State × Account :=
  let debitEpoch := min ge epoch
  if acct.lastDebitEpoch < debitEpoch then
    let debit := asU64 (debitEpoch - acct.lastDebitEpoch) * acct.capacityUsed
    ({ s with
        creditDebited := s.creditDebited + debit
        creditCommitted := s.creditCommitted - debit },
     { acct with
        creditCommitted := acct.creditCommitted - debit
        lastDebitEpoch := debitEpoch })
  else
    let refund := asU64 (acct.lastDebitEpoch - ge) * sizeI
    ({ s with
        creditDebited := s.creditDebited - refund
        creditCommitted := s.creditCommitted + refund },
     { acct with creditCommitted := acct.creditCommitted + refund })

/-- The capacity-release and committed-credit reclaim step of `delete_blob`,
skipped entirely when the blob status is `Failed`. -/
def deleteReclaim (s : State) (acct : Account) (status : BlobStatus)
    (nge? : Option Epoch) (numSubscribers : Nat) (ge : Epoch) (sizeI : Int)
    (delegKeys : Option (Addr × Addr)) : State × Account :=
  if status = .failed then (s, acct)
  else
    let sacct :=
      if nge? = none then
        ({ s with capacityUsed :=
            if numSubscribers = 1 then s.capacityUsed - sizeI else s.capacityUsed },
         { acct with capacityUsed := acct.capacityUsed - sizeI })
      else (s, acct)
    let s := sacct.1
    let acct := sacct.2
    if acct.lastDebitEpoch < ge then
      let reclaim :=
        match nge? with
        | some nge => (ge - max nge acct.lastDebitEpoch) * sizeI
        | none => (ge - acct.lastDebitEpoch) * sizeI
      let acct := { acct with
        creditCommitted := acct.creditCommitted - reclaim
        creditFree := acct.creditFree + reclaim }
      let acct :=
        match delegKeys with
        | some (dOrigin, k) =>
          acct.updateApproval dOrigin k (fun ap => { ap with used := ap.used - reclaim })
        | none => acct
      ({ s with creditCommitted := s.creditCommitted - reclaim }, acct)
    else (s, acct)

/-- `State::delete_blob`. -/
def State.deleteBlob (s : State) (origin caller subscriber : Addr)
    (epoch : Epoch) (hash : Hash) (id : SubscriptionId) :
    Except ErrorKind Bool × State :=
  let acct := (lookupA subscriber s.accounts).getD (Account.new 0 epoch)
  match lookupA hash s.blobs with
  | none => (.ok false, s.putAccount subscriber acct)
  | some blob =>
    let numSubscribers := blob.subscribers.length
    match lookupA subscriber blob.subscribers with
    | none => (.error .forbidden, s.putAccount subscriber acct)
    | some group =>
      let me := group.maxExpiries id (some 0)
      match lookupA id group.subscriptions with
      | none => (.error .notFound, s.putAccount subscriber acct)
      | some sub =>
        let delegRes : Except ErrorKind (Option (Addr × Addr × Addr × CreditApproval)) :=
          match sub.delegate with
          | none => .ok none
          | some (dOrigin, dCaller) =>
            match findApproval acct dOrigin dCaller with
            | some (k, ap) => .ok (some (dOrigin, dCaller, k, ap))
            | none => if origin ≠ subscriber then .error .forbidden else .ok none
        match delegRes with
        | .error e => (.error e, s.putAccount subscriber acct)
        | .ok deleg =>
          let authErr : Option ErrorKind :=
            match deleg with
            | none => if origin ≠ subscriber then some .forbidden else none
            | some (dOrigin, dCaller, _, ap) =>
              if (¬(origin = dOrigin ∧ caller = dCaller)) ∧ origin ≠ subscriber then
                some .forbidden
              else
                match ap.expiry with
                | some ex => if ex ≤ epoch then some .forbidden else none
                | none => none
          match authErr with
          | some e => (.error e, s.putAccount subscriber acct)
          | none =>
            let ge := (me.1).getD 0
            let sizeI : Int := (blob.size : Int)
            let sacct := deleteDebit s acct ge epoch sizeI
            let sacct2 := deleteReclaim sacct.1 sacct.2 blob.status me.2 numSubscribers
              ge sizeI (deleg.map (fun d => (d.1, d.2.2.1)))
            let s := sacct2.1
            let acct := sacct2.2
            let expiries2 := updateExpiryIndex s.expiries subscriber hash id none (some sub.expiry)
            let added2 :=
              match lookupA hash s.added with
              | some entry =>
                let entry2 := removeSet (subscriber, id, sub.source) entry
                if entry2 = [] then eraseA hash s.added else insertA hash entry2 s.added
              | none => s.added
            let pending2 :=
              match lookupA hash s.pending with
              | some entry =>
                let entry2 := removeSet (subscriber, id, sub.source) entry
                if entry2 = [] then eraseA hash s.pending else insertA hash entry2 s.pending
              | none => s.pending
            let subs2 := eraseA id group.subscriptions
            let blobsDel :=
              if subs2 = [] then
                let subscribers2 := eraseA subscriber blob.subscribers
                if subscribers2 = [] then (eraseA hash s.blobs, true)
                else (insertA hash { blob with subscribers := subscribers2 } s.blobs, false)
              else
                let group3 := { group with subscriptions := subs2 }
                let blob3 := { blob with subscribers := insertA subscriber group3 blob.subscribers }
                (insertA hash blob3 s.blobs, false)
            (.ok blobsDel.2,
             ({ s with
                expiries := expiries2
                added := added2
                pending := pending2
                blobs := blobsDel.1 }).putAccount subscriber acct)

/-- The `Failed`-status accounting of `finalize_blob`: the min-added refund to
free credit, the capacity release, and the committed-credit reclaim. -/
def finalizeFailed (s : State) (acct : Account) (subAdded : Epoch)
    (subIsMin : Bool) (nextMinAdded : Option Epoch) (ge? nge? : Option Epoch)
    (sizeI : Int) (delegKeys : Option (Addr × Addr)) : State × Account :=
  let sacct1 :=
    if subAdded < acct.lastDebitEpoch ∧ subIsMin then
      let refundCutoff := min (nextMinAdded.getD acct.lastDebitEpoch) acct.lastDebitEpoch
      let refund := asU64 (refundCutoff - subAdded) * sizeI
      ({ s with creditDebited := s.creditDebited - refund },
       { acct with creditFree := acct.creditFree + refund })
    else (s, acct)
  let s := sacct1.1
  let acct := sacct1.2
  let sacct2 :=
    if nge? = none then
      ({ s with capacityUsed := s.capacityUsed - sizeI },
       { acct with capacityUsed := acct.capacityUsed - sizeI })
    else (s, acct)
  let s := sacct2.1
  let acct := sacct2.2
  let ge := ge?.getD 0
  if acct.lastDebitEpoch < ge then
    let reclaim :=
      match nge? with
      | some nge => (ge - max nge acct.lastDebitEpoch) * sizeI
      | none => (ge - acct.lastDebitEpoch) * sizeI
    let acct := { acct with
      creditCommitted := acct.creditCommitted - reclaim
      creditFree := acct.creditFree + reclaim }
    let acct :=
      match delegKeys with
      | some (dOrigin, k) =>
        acct.updateApproval dOrigin k (fun ap => { ap with used := ap.used - reclaim })
      | none => acct
    ({ s with creditCommitted := s.creditCommitted - reclaim }, acct)
  else (s, acct)

/-- `State::finalize_blob`. -/
def State.finalizeBlob (s : State) (subscriber : Addr) (epoch : Epoch)
    (hash : Hash) (id : SubscriptionId) (status : BlobStatus) :
    Except ErrorKind Unit × State :=
  if status = .added ∨ status = .pending then (.error .illegalState, s)
  else
    let acct := (lookupA subscriber s.accounts).getD (Account.new 0 epoch)
    match lookupA hash s.blobs with
    | none => (.ok (), s.putAccount subscriber acct)
    | some blob =>
      if blob.status = .added then (.error .illegalState, s.putAccount subscriber acct)
      else if blob.status = .resolved then (.ok (), s.putAccount subscriber acct)
      else
        match lookupA subscriber blob.subscribers with
        | none => (.error .forbidden, s.putAccount subscriber acct)
        | some group =>
          let me := group.maxExpiries id (some 0)
          match group.isMinAdded id with
          | .error e => (.error e, s.putAccount subscriber acct)
          | .ok (subIsMin, nextMinAdded) =>
            match lookupA id group.subscriptions with
            | none => (.error .notFound, s.putAccount subscriber acct)
            | some sub =>
              let deleg : Option (Addr × Addr × CreditApproval) :=
                match sub.delegate with
                | none => none
                | some (dOrigin, dCaller) =>
                  (findApproval acct dOrigin dCaller).map (fun p => (dOrigin, p.1, p.2))
              let sizeI : Int := (blob.size : Int)
              let sacct :=
                if status = .failed then
                  finalizeFailed s acct sub.added subIsMin nextMinAdded me.1 me.2 sizeI
                    (deleg.map (fun d => (d.1, d.2.1)))
                else (s, acct)
              let s := sacct.1
              let acct := sacct.2
              let groupUpd :=
                if status = .failed then
                  { group with subscriptions := insertA id { sub with failed := true } group.subscriptions }
                else group
              let blobUpd := { blob with
                status := status
                subscribers := insertA subscriber groupUpd blob.subscribers }
              let pending2 :=
                match lookupA hash s.pending with
                | some entry =>
                  let entry2 := removeSet (subscriber, id, sub.source) entry
                  if entry2 = [] then eraseA hash s.pending else insertA hash entry2 s.pending
                | none => s.pending
              (.ok (),
               ({ s with
                  blobs := insertA hash blobUpd s.blobs
                  pending := pending2 }).putAccount subscriber acct)

/-- The deletion attempt for one expired entry inside `debit_accounts`. -/
def tryDeleteExpired (epoch : Epoch) (subscriber : Addr) (key : ExpiryKey)
    (s : State) (dels : List Hash) : State × List Hash :=
  let r := s.deleteBlob subscriber subscriber subscriber epoch key.hash key.id
  match r.1 with
  | .ok true => (r.2, insertSet key.hash dels)
  | .ok false => (r.2, dels)
  | .error _ => (r.2, dels)

/-- Handling of one `(ExpiryKey, auto_renew)` pair inside `debit_accounts`:
attempt renewal when auto-renewing; on failure fall through to deletion. -/
def processExpirySub (epoch : Epoch) (subscriber : Addr)
    (acc : State × List Hash) (kv : ExpiryKey × Bool) : State × List Hash :=
  if kv.2 then
    let r := acc.1.renewBlob subscriber epoch kv.1.hash kv.1.id
    match r.1 with
    | .ok _ => (r.2, acc.2)
    | .error _ => tryDeleteExpired epoch subscriber kv.1 r.2 acc.2
  else tryDeleteExpired epoch subscriber kv.1 acc.1 acc.2

/-- Handling of one subscriber's expired keys inside `debit_accounts`. -/
def processExpiryEntry (epoch : Epoch) (acc : State × List Hash)
    (entry : Addr × List (ExpiryKey × Bool)) : State × List Hash :=
  entry.2.foldl (processExpirySub epoch entry.1) acc

/-- Handling of one expiry bucket inside `debit_accounts`. -/
def processExpiries (epoch : Epoch) (acc : State × List Hash)
    (bucket : Epoch × List (Addr × List (ExpiryKey × Bool))) : State × List Hash :=
  bucket.2.foldl (processExpiryEntry epoch) acc

/-- The per-account debit loop of `debit_accounts`: rewrites every account and
accumulates the total debit that the loop adds to `credit_debited` and removes
from `credit_committed`. -/
def runDebitLoop (epoch : Epoch) :
    List (Addr × Account) → Int → List (Addr × Account) × Int
  | [], total => ([], total)
  | (k, a) :: rest, total =>
    let debit := asU64 (epoch - a.lastDebitEpoch) * a.capacityUsed
    let a2 := { a with creditCommitted := a.creditCommitted - debit, lastDebitEpoch := epoch }
    let rec2 := runDebitLoop epoch rest (total + debit)
    ((k, a2) :: rec2.1, rec2.2)

/-- The first pass of `debit_accounts`: fold over the snapshot of expiry
buckets at or before `epoch`, renewing the auto-renew subscriptions and
deleting the rest; returns the mutated state and the deleted hashes. -/
def debitFirstPass (s : State) (epoch : Epoch) : State × List Hash :=
  (s.expiries.filter (fun p => p.1 ≤ epoch)).foldl (processExpiries epoch) (s, [])

/-- `State::debit_accounts`. -/
def State.debitAccounts (s : State) (epoch : Epoch) : List Hash × State :=
  let firstPass := debitFirstPass s epoch
  let s := firstPass.1
  let loop := runDebitLoop epoch s.accounts 0
  (firstPass.2,
   { s with
      accounts := loop.1
      creditDebited := s.creditDebited + loop.2
      creditCommitted := s.creditCommitted - loop.2 })

/-- The nine engine operations named by the conservation claim. -/
inductive Op where
  | buy (recipient : Addr) (amount : TokenAmount) (epoch : Epoch)
  | approve (fromAddr toAddr : Addr) (requireCaller : Option Addr) (epoch : Epoch)
      (limit : Option Nat) (ttl : Option Epoch)
  | revoke (fromAddr toAddr : Addr) (requireCaller : Option Addr)
  | add (origin caller subscriber : Addr) (epoch : Epoch) (hash metadataHash : Hash)
      (id : SubscriptionId) (size : Nat) (ttl : Option Epoch) (source : PublicKey)
      (tokensReceived : TokenAmount)
  | renew (subscriber : Addr) (epoch : Epoch) (hash : Hash) (id : SubscriptionId)
  | delete (origin caller subscriber : Addr) (epoch : Epoch) (hash : Hash)
      (id : SubscriptionId)
  | setPending (subscriber : Addr) (hash : Hash) (id : SubscriptionId) (source : PublicKey)
  | finalize (subscriber : Addr) (epoch : Epoch) (hash : Hash) (id : SubscriptionId)
      (status : BlobStatus)
  | debit (epoch : Epoch)

/-- Apply one operation, keeping the state the engine is left with (on an error
the partial in-memory mutations of the source are kept, matching `&mut self`). -/
def applyOp (s : State) (op : Op) : State :=
  match op with
  | .buy r a e => (s.buyCredit r a e).2
  | .approve f t rc e l ttl => (s.approveCredit f t rc e l ttl).2
  | .revoke f t rc => (s.revokeCredit f t rc).2
  | .add o c sub e h mh id sz ttl src tok => (s.addBlob o c sub e h mh id sz ttl src tok).2
  | .renew sub e h id => (s.renewBlob sub e h id).2
  | .delete o c sub e h id => (s.deleteBlob o c sub e h id).2
  | .setPending sub h id src => (s.setBlobPending sub h id src).2
  | .finalize sub e h id st => (s.finalizeBlob sub e h id st).2
  | .debit e => (s.debitAccounts e).2

/-! ## Conservation of credit -/

/-- The credit mass of one account: free plus committed credit. -/
def creditsOf (a : Account) : Int := a.creditFree + a.creditCommitted

/-- Total credit mass over the account map. -/
def sumCredits (l : List (Addr × Account)) : Int :=
  (l.map (fun p => creditsOf p.2)).sum

/-- The credit mass currently stored under key `k` (zero when absent). -/
def lookCredits (k : Addr) (l : List (Addr × Account)) : Int :=
  ((lookupA k l).map creditsOf).getD 0

/-- The conservation invariant of the spec:
`credit_sold − credit_debited = Σ accounts (credit_free + credit_committed)`. -/
def conserves (s : State) : Prop :=
  s.creditSold - s.creditDebited = sumCredits s.accounts

/-- `pend s k acct`: conservation of the state obtained by writing the borrowed
account `acct` back under key `k` — the form the invariant takes while an
operation holds the subscriber's account entry as a mutable borrow. -/
def pend (s : State) (k : Addr) (acct : Account) : Prop :=
  s.creditSold - s.creditDebited =
    sumCredits s.accounts - lookCredits k s.accounts + creditsOf acct

/-! ## Concrete states used by the checks below -/

/-- Fresh state: capacity `2^20`, debit rate 1 (the configuration of the
source's unit tests). -/
def exState0 : State := State.new 1048576 1

/-- Account 0 buys 4000000 atto of credit at epoch 1. -/
def exStateBuy : State := (exState0.buyCredit 0 4000000 1).2

/-- Account 0 then adds a fresh 1024-byte blob (hash 7) with TTL 3600 at
epoch 1, self-funded, no tokens. -/
def exStateAdd : State :=
  (exStateBuy.addBlob 0 0 0 1 7 70 .default 1024 (some 3600) 5 0).2

/-- Account 0 deletes that same blob at the same epoch 1. -/
def exDelete : Except ErrorKind Bool × State :=
  exStateAdd.deleteBlob 0 0 0 1 7 .default

/-- An `add_blob` call with 5 atto of tokens attached while the account
already holds more than enough free credit. -/
def exAddTokens : Except ErrorKind (Subscription × TokenAmount) × State :=
  exStateBuy.addBlob 0 0 0 1 7 70 .default 1024 (some 3600) 5 5

/-- A blob finalized as `Failed` with one subscription for account 0. -/
def exFailedBlob : Blob :=
  { size := 1024, metadataHash := 70,
    subscribers := [(0, ⟨[(SubscriptionId.default,
      { added := 1, expiry := 3601, autoRenew := false, source := 5,
        delegate := none, failed := true })]⟩)],
    status := .failed }

/-- A state holding the failed blob under hash 7. -/
def exStateFailed : State := { exStateBuy with blobs := [(7, exFailedBlob)] }

/-- A blob in `Resolved` status with one subscription for account 0. -/
def exResolvedBlob : Blob := { exFailedBlob with status := .resolved }

/-- A state holding the resolved blob under hash 7. -/
def exStateResolved : State := { exStateBuy with blobs := [(7, exResolvedBlob)] }

/-- A state whose pending index already holds a triple for hash 7 from another
subscriber. -/
def exStatePend : State :=
  { exState0 with
    blobs := [(7, { size := 10, metadataHash := 70, subscribers := [], status := .pending })]
    pending := [(7, [(1, SubscriptionId.default, 9)])] }

/-- Account 0 buys 20000000 atto at epoch 1 (for the stale-debit scenario). -/
def exBuy20 : State := ((State.new 1048576 1).buyCredit 0 20000000 1).2

/-- Blob 7 (1024 bytes, TTL 3600) added at epoch 1. -/
def exRef1 : State := (exBuy20.addBlob 0 0 0 1 7 70 .default 1024 (some 3600) 5 0).2

/-- Blob 8 (2048 bytes, default TTL) added at epoch 3611, past blob 7's
expiry 3601: the proactive debit advances `last_debit_epoch` to 3611,
overcharging blob 7 by 10 epochs. -/
def exRef2 : State := (exRef1.addBlob 0 0 0 3611 8 80 (.key [1]) 2048 none 5 0).2

/-- Blob 7 added again (same default id) at epoch 3621: the stale-debit rebate
fires, since `last_debit_epoch = 3611 > group_expiry = 3601`. -/
def exRef3 : State := (exRef2.addBlob 0 0 0 3621 7 70 .default 1024 none 6 0).2

/-- The account of the stale-debit scenario just before the third add: the
state of account 0 inside `exRef2`. -/
def exC4Acct : Account :=
  { capacityUsed := 3072, creditFree := 8940800, creditCommitted := 7362560,
    lastDebitEpoch := 3611, approvals := [] }

/-- The subscription group of blob 7 before the third add. -/
def exC4Group : SubscriptionGroup :=
  ⟨[(SubscriptionId.default,
    { added := 1, expiry := 3601, autoRenew := false, source := 5,
      delegate := none, failed := false })]⟩

/-- Blob 7 before the third add. -/
def exC4Blob : Blob :=
  { size := 1024, metadataHash := 70, subscribers := [(0, exC4Group)],
    status := .resolved }

/-- A directly-constructed state in the stale-debit situation. -/
def exC4State : State :=
  { capacityTotal := 1048576, capacityUsed := 3072, creditSold := 20000000,
    creditCommitted := 7362560, creditDebited := 3696640, creditDebitRate := 1,
    accounts := [(0, exC4Acct)], blobs := [(7, exC4Blob)], expiries := [],
    added := [], pending := [] }

theorem sumCredits_insertA (k : Addr) (v : Account) (l : List (Addr × Account)) :
    sumCredits (insertA k v l) = sumCredits l - lookCredits k l + creditsOf v := by
  induction l with
  | nil => simp [insertA, sumCredits, lookCredits, lookupA]
  | cons p rest ih =>
    by_cases h : p.1 = k
    · simp only [insertA, if_pos h, sumCredits, List.map_cons, List.sum_cons,
        lookCredits, lookupA, Option.map_some', Option.getD_some]
      ring
    · simp only [insertA, if_neg h, sumCredits, List.map_cons, List.sum_cons,
        lookCredits, lookupA, if_neg h] at ih ⊢
      rw [ih]
      ring

theorem conserves_putAccount_of_pend (s : State) (k : Addr) (acct : Account)
    (h : pend s k acct) : conserves (s.putAccount k acct) := by
  simp only [conserves, State.putAccount, sumCredits_insertA]
  simpa [pend] using h

theorem pend_getD (s : State) (k : Addr) (e : Epoch) (h : conserves s) :
    pend s k ((lookupA k s.accounts).getD (Account.new 0 e)) := by
  cases hl : lookupA k s.accounts with
  | none =>
    simp only [pend, lookCredits, hl, Option.map_none', Option.getD_none,
      Option.getD_none, creditsOf, Account.new]
    simpa [conserves] using h
  | some a =>
    simp only [pend, lookCredits, hl, Option.map_some', Option.getD_some, Option.getD_some]
    simp only [conserves] at h
    linarith

theorem pend_of_lookup (s : State) (k : Addr) (a : Account)
    (hl : lookupA k s.accounts = some a) (h : conserves s)
    (b : Account) (hb : creditsOf b = creditsOf a) : pend s k b := by
  simp only [pend, lookCredits, hl, Option.map_some', Option.getD_some, hb]
  simp only [conserves] at h
  linarith

theorem creditsOf_updateApproval (a : Account) (o k : Addr)
    (f : CreditApproval → CreditApproval) :
    creditsOf (a.updateApproval o k f) = creditsOf a := by
  unfold Account.updateApproval
  split
  · rfl
  · split
    · rfl
    · rfl

theorem conserves_buyCredit (s : State) (r : Addr) (a : TokenAmount) (e : Epoch)
    (h : conserves s) : conserves (s.buyCredit r a e).2 := by
  unfold State.buyCredit
  split
  · exact h
  · split
    · exact h
    · cases hl : lookupA r s.accounts with
      | none =>
        simp only [hl]
        apply conserves_putAccount_of_pend
        simp only [pend, lookCredits, hl, Option.map_none', Option.getD_none,
          creditsOf, Account.new]
        simp only [conserves] at h
        linarith
      | some acc =>
        simp only [hl]
        apply conserves_putAccount_of_pend
        simp only [pend, lookCredits, hl, Option.map_some', Option.getD_some, creditsOf]
        simp only [conserves] at h
        linarith

theorem pend_congr (s : State) (k : Addr) (a b : Account)
    (hab : creditsOf b = creditsOf a) (h : pend s k a) : pend s k b := by
  simp only [pend] at *
  rw [hab]
  exact h

theorem conserves_approveCredit (s : State) (f t : Addr) (rc : Option Addr)
    (e : Epoch) (l : Option Nat) (ttl : Option Epoch) (h : conserves s) :
    conserves (s.approveCredit f t rc e l ttl).2 := by
  unfold State.approveCredit
  split
  · exact h
  · dsimp only
    split
    · exact conserves_putAccount_of_pend _ _ _ (pend_congr s f _ _ rfl (pend_getD s f e h))
    · exact conserves_putAccount_of_pend _ _ _ (pend_congr s f _ _ rfl (pend_getD s f e h))

theorem conserves_revokeCredit (s : State) (f t : Addr) (rc : Option Addr)
    (h : conserves s) : conserves (s.revokeCredit f t rc).2 := by
  unfold State.revokeCredit
  split
  · exact h
  · rename_i acct hl
    split
    · exact h
    · apply conserves_putAccount_of_pend
      exact pend_of_lookup s f acct hl h _ rfl

theorem updateApproval_creditFree (a : Account) (o k : Addr)
    (f : CreditApproval → CreditApproval) :
    (Account.updateApproval a o k f).creditFree = a.creditFree := by
  unfold Account.updateApproval
  split
  · rfl
  · split
    · rfl
    · rfl

theorem updateApproval_creditCommitted (a : Account) (o k : Addr)
    (f : CreditApproval → CreditApproval) :
    (Account.updateApproval a o k f).creditCommitted = a.creditCommitted := by
  unfold Account.updateApproval
  split
  · rfl
  · split
    · rfl
    · rfl

theorem ensureCreditOrBuy_ok_delta (f so cr : Int) (tok : TokenAmount) (rate : Nat)
    (e : Epoch) (d : Option CreditApproval) (f2 so2 tu : Int)
    (h : ensureCreditOrBuy f so cr tok rate e d = .ok (f2, so2, tu)) :
    so2 - so = f2 - f := by
  unfold ensureCreditOrBuy at h
  split at h
  · cases d with
    | some ap => exact absurd h (by simp)
    | none =>
      dsimp only at h
      split at h
      · split at h
        · simp only [Except.ok.injEq, Prod.mk.injEq] at h
          obtain ⟨h1, h2, _⟩ := h
          rw [← h1, ← h2]
          ring
        · exact absurd h (by simp)
      · simp only [Except.ok.injEq, Prod.mk.injEq] at h
        obtain ⟨h1, h2, _⟩ := h
        rw [← h1, ← h2]
        ring
  · split at h
    · exact absurd h (by simp)
    · simp only [Except.ok.injEq, Prod.mk.injEq] at h
      obtain ⟨h1, h2, _⟩ := h
      rw [← h1, ← h2]
      ring

theorem conserves_addBlobCommit (s : State) (k : Addr) (e : Epoch) (a : Account)
    (dg : Option (Addr × Addr)) (nc nac cr : Int) (sub : Subscription)
    (tu : TokenAmount) (h : pend s k a) :
    conserves (s.addBlobCommit k e a dg nc nac cr sub tu).2 := by
  unfold State.addBlobCommit
  dsimp only
  split
  · rename_i p
    apply conserves_putAccount_of_pend
    simp only [pend, creditsOf, updateApproval_creditFree, updateApproval_creditCommitted] at h ⊢
    linarith
  · apply conserves_putAccount_of_pend
    simp only [pend, creditsOf] at h ⊢
    linarith

theorem pend_refund (s : State) (k : Addr) (a : Account) (r : Int) (h : pend s k a) :
    pend { s with creditDebited := s.creditDebited - r,
                  creditCommitted := s.creditCommitted + r }
      k { a with creditCommitted := a.creditCommitted + r } := by
  simp only [pend, creditsOf] at h ⊢
  linarith

theorem pend_ensure (s : State) (k : Addr) (a : Account) (f2 so2 : Int)
    (hd : so2 - s.creditSold = f2 - a.creditFree) (h : pend s k a) :
    pend { s with creditSold := so2 } k { a with creditFree := f2 } := by
  simp only [pend, creditsOf] at h ⊢
  linarith

theorem conserves_addBlob (s : State) (o c k : Addr) (e : Epoch) (h mh : Hash)
    (id : SubscriptionId) (sz : Nat) (ttl : Option Epoch) (src : PublicKey)
    (tok : TokenAmount) (hc : conserves s) :
    conserves (s.addBlob o c k e h mh id sz ttl src tok).2 := by
  have p0 := pend_getD s k e hc
  simp only [pend, creditsOf] at p0
  unfold State.addBlob
  split
  · exact hc
  · dsimp only
    split
    · exact conserves_putAccount_of_pend _ _ _ (by simp only [pend, creditsOf]; linarith)
    · split
      · split
        · -- existing blob, existing group
          split
          · -- ensure error after refund
            apply conserves_putAccount_of_pend
            simp only [pend, creditsOf]
            linarith
          · rename_i free2 sold2 tu hbuy
            have hd := ensureCreditOrBuy_ok_delta _ _ _ _ _ _ _ _ _ _ hbuy
            split
            · -- existing subscription
              apply conserves_addBlobCommit
              simp only [pend, creditsOf]
              linarith
            · -- new subscription in existing group
              apply conserves_addBlobCommit
              simp only [pend, creditsOf]
              linarith
        · -- existing blob, new group
          split
          · apply conserves_putAccount_of_pend
            simp only [pend, creditsOf]
            linarith
          · rename_i free2 sold2 tu hbuy
            have hd := ensureCreditOrBuy_ok_delta _ _ _ _ _ _ _ _ _ _ hbuy
            apply conserves_addBlobCommit
            simp only [pend, creditsOf]
            linarith
      · -- new blob
        split
        · apply conserves_putAccount_of_pend
          simp only [pend, creditsOf]
          linarith
        ·
          split
          · apply conserves_putAccount_of_pend
            simp only [pend, creditsOf]
            linarith
          · rename_i free2 sold2 tu hbuy
            have hd := ensureCreditOrBuy_ok_delta _ _ _ _ _ _ _ _ _ _ hbuy
            apply conserves_addBlobCommit
            simp only [pend, creditsOf]
            linarith

theorem conserves_renewBlob (s : State) (k : Addr) (e : Epoch) (h : Hash)
    (id : SubscriptionId) (hc : conserves s) :
    conserves (s.renewBlob k e h id).2 := by
  have p0 := pend_getD s k e hc
  simp only [pend, creditsOf] at p0
  unfold State.renewBlob
  dsimp only
  repeat' split
  all_goals apply conserves_putAccount_of_pend
  all_goals simp only [pend, creditsOf, updateApproval_creditFree, updateApproval_creditCommitted]
  all_goals linarith

theorem pend_deleteDebit (s : State) (k : Addr) (a : Account) (ge e : Epoch)
    (sz : Int) (h : pend s k a) :
    pend (deleteDebit s a ge e sz).1 k (deleteDebit s a ge e sz).2 := by
  unfold deleteDebit
  dsimp only
  split
  · simp only [pend, creditsOf] at h ⊢
    linarith
  · simp only [pend, creditsOf] at h ⊢
    linarith

theorem pend_deleteReclaim (s : State) (k : Addr) (a : Account)
    (st : BlobStatus) (nge? : Option Epoch) (n : Nat) (ge : Epoch) (sz : Int)
    (dk : Option (Addr × Addr)) (h : pend s k a) :
    pend (deleteReclaim s a st nge? n ge sz dk).1 k
      (deleteReclaim s a st nge? n ge sz dk).2 := by
  unfold deleteReclaim
  dsimp only
  repeat' split
  all_goals simp only [pend, creditsOf, updateApproval_creditFree,
    updateApproval_creditCommitted] at h ⊢
  all_goals linarith

theorem pend_setIdxDelete (s : State) (k : Addr) (a : Account)
    (ex : List (Epoch × List (Addr × List (ExpiryKey × Bool))))
    (ad pe : List (Hash × List (Addr × SubscriptionId × PublicKey)))
    (bl : List (Hash × Blob)) (h : pend s k a) :
    pend { s with expiries := ex, added := ad, pending := pe, blobs := bl } k a := by
  simpa [pend] using h

theorem conserves_deleteBlob (s : State) (o c k : Addr) (e : Epoch) (h : Hash)
    (id : SubscriptionId) (hc : conserves s) :
    conserves (s.deleteBlob o c k e h id).2 := by
  have q0 := pend_getD s k e hc
  unfold State.deleteBlob
  dsimp only
  repeat' split
  all_goals apply conserves_putAccount_of_pend
  all_goals first
    | exact q0
    | exact pend_setIdxDelete _ _ _ _ _ _ _
        (pend_deleteReclaim _ _ _ _ _ _ _ _ _ (pend_deleteDebit _ _ _ _ _ _ q0))

theorem pend_finalizeFailed (s : State) (k : Addr) (a : Account)
    (subAdded : Epoch) (subIsMin : Bool) (nma : Option Epoch)
    (ge? nge? : Option Epoch) (sz : Int) (dk : Option (Addr × Addr))
    (h : pend s k a) :
    pend (finalizeFailed s a subAdded subIsMin nma ge? nge? sz dk).1 k
      (finalizeFailed s a subAdded subIsMin nma ge? nge? sz dk).2 := by
  unfold finalizeFailed
  dsimp only
  repeat' split
  all_goals simp only [pend, creditsOf, updateApproval_creditFree,
    updateApproval_creditCommitted] at h ⊢
  all_goals linarith

theorem pend_setIdxFinalize (s : State) (k : Addr) (a : Account)
    (bl : List (Hash × Blob))
    (pe : List (Hash × List (Addr × SubscriptionId × PublicKey)))
    (h : pend s k a) :
    pend { s with blobs := bl, pending := pe } k a := by
  simpa [pend] using h

theorem conserves_finalizeBlob (s : State) (k : Addr) (e : Epoch) (h : Hash)
    (id : SubscriptionId) (st : BlobStatus) (hc : conserves s) :
    conserves (s.finalizeBlob k e h id st).2 := by
  have q0 := pend_getD s k e hc
  unfold State.finalizeBlob
  dsimp only
  repeat' split
  all_goals try exact hc
  all_goals apply conserves_putAccount_of_pend
  all_goals first
    | exact q0
    | exact pend_setIdxFinalize _ _ _ _ _
        (pend_finalizeFailed _ _ _ _ _ _ _ _ _ _ q0)

theorem conserves_setBlobPending (s : State) (sub : Addr) (hash : Hash)
    (id : SubscriptionId) (src : PublicKey) (h : conserves s) :
    conserves (s.setBlobPending sub hash id src).2 := by
  unfold State.setBlobPending
  split
  · exact h
  · simpa [conserves] using h

theorem runDebitLoop_spec (e : Epoch) (l : List (Addr × Account)) (t : Int) :
    sumCredits (runDebitLoop e l t).1 + ((runDebitLoop e l t).2 - t) = sumCredits l := by
  induction l generalizing t with
  | nil => simp [runDebitLoop, sumCredits]
  | cons p rest ih =>
    obtain ⟨pk, pa⟩ := p
    have h2 := ih (t + asU64 (e - pa.lastDebitEpoch) * pa.capacityUsed)
    simp only [runDebitLoop, sumCredits, List.map_cons, List.sum_cons, creditsOf] at h2 ⊢
    linarith

theorem conserves_tryDeleteExpired (e : Epoch) (sub : Addr) (key : ExpiryKey)
    (s : State) (dels : List Hash) (h : conserves s) :
    conserves (tryDeleteExpired e sub key s dels).1 := by
  unfold tryDeleteExpired
  dsimp only
  have hd := conserves_deleteBlob s sub sub sub e key.hash key.id h
  split
  · exact hd
  · exact hd
  · exact hd

theorem conserves_processExpirySub (e : Epoch) (sub : Addr)
    (acc : State × List Hash) (kv : ExpiryKey × Bool) (h : conserves acc.1) :
    conserves (processExpirySub e sub acc kv).1 := by
  unfold processExpirySub
  dsimp only
  split
  · have hr := conserves_renewBlob acc.1 sub e kv.1.hash kv.1.id h
    split
    · exact hr
    · exact conserves_tryDeleteExpired _ _ _ _ _ hr
  · exact conserves_tryDeleteExpired _ _ _ _ _ h

theorem conserves_foldl_aux {β : Type} (f : (State × List Hash) → β → State × List Hash)
    (hf : ∀ acc b, conserves acc.1 → conserves (f acc b).1) :
    ∀ (l : List β) (acc : State × List Hash), conserves acc.1 → conserves (l.foldl f acc).1 := by
  intro l
  induction l with
  | nil => intro acc h; exact h
  | cons b rest ih => intro acc h; exact ih (f acc b) (hf acc b h)

theorem conserves_processExpiryEntry (e : Epoch) (acc : State × List Hash)
    (entry : Addr × List (ExpiryKey × Bool)) (h : conserves acc.1) :
    conserves (processExpiryEntry e acc entry).1 := by
  unfold processExpiryEntry
  exact conserves_foldl_aux _ (fun a b hb => conserves_processExpirySub e entry.1 a b hb)
    entry.2 acc h

theorem conserves_processExpiries (e : Epoch) (acc : State × List Hash)
    (bucket : Epoch × List (Addr × List (ExpiryKey × Bool))) (h : conserves acc.1) :
    conserves (processExpiries e acc bucket).1 := by
  unfold processExpiries
  exact conserves_foldl_aux _ (fun a b hb => conserves_processExpiryEntry e a b hb)
    bucket.2 acc h

theorem conserves_debitAccounts (s : State) (e : Epoch) (h : conserves s) :
    conserves (s.debitAccounts e).2 := by
  unfold State.debitAccounts debitFirstPass
  dsimp only
  have h1 : conserves ((s.expiries.filter fun p => p.1 ≤ e).foldl (processExpiries e) (s, [])).1 :=
    conserves_foldl_aux _ (fun a b hb => conserves_processExpiries e a b hb) _ (s, []) h
  have h2 := runDebitLoop_spec e
    ((s.expiries.filter fun p => p.1 ≤ e).foldl (processExpiries e) (s, [])).1.accounts 0
  simp only [conserves] at h1 ⊢
  linarith

theorem conserves_applyOp (s : State) (op : Op) (h : conserves s) :
    conserves (applyOp s op) := by
  cases op with
  | buy r a e => exact conserves_buyCredit s r a e h
  | approve f t rc e l ttl => exact conserves_approveCredit s f t rc e l ttl h
  | revoke f t rc => exact conserves_revokeCredit s f t rc h
  | add o c sub e hs mh id sz ttl src tok => exact conserves_addBlob s o c sub e hs mh id sz ttl src tok h
  | renew sub e hs id => exact conserves_renewBlob s sub e hs id h
  | delete o c sub e hs id => exact conserves_deleteBlob s o c sub e hs id h
  | setPending sub hs id src => exact conserves_setBlobPending s sub hs id src h
  | finalize sub e hs id st => exact conserves_finalizeBlob s sub e hs id st h
  | debit e => exact conserves_debitAccounts s e h

theorem conserves_new (capacity rate : Nat) : conserves (State.new capacity rate) := by
  simp [conserves, State.new, sumCredits]

theorem conserves_runOps (s : State) (ops : List Op) (h : conserves s) :
    conserves (ops.foldl applyOp s) := by
  induction ops generalizing s with
  | nil => exact h
  | cons op rest ih => exact ih _ (conserves_applyOp s op h)

/-- C1: for every sequence of engine operations (buy_credit, approve_credit,
revoke_credit, add_blob, renew_blob, delete_blob, set_blob_pending,
finalize_blob, debit_accounts) applied at any epochs to a freshly initialized
state, after each operation the global `credit_sold − credit_debited` equals
the sum over all accounts of `credit_free + credit_committed`.  Since `ops`
ranges over every list of operations, the invariant holds after every prefix,
i.e. after each operation. -/
theorem claim_C1_conservation (capacity rate : Nat) (ops : List Op) :
    conserves (ops.foldl applyOp (State.new capacity rate)) :=
  conserves_runOps (State.new capacity rate) ops (conserves_new capacity rate)

/-! ## Association-list facts -/

theorem lookupA_insertA_self {α β : Type} [DecidableEq α] (k : α) (v : β) :
    ∀ l : List (α × β), lookupA k (insertA k v l) = some v := by
  intro l
  induction l with
  | nil => simp [insertA, lookupA]
  | cons p rest ih =>
    by_cases h : p.1 = k
    · simp [insertA, h, lookupA]
    · simp [insertA, h, lookupA, ih]

theorem insertA_self {α β : Type} [DecidableEq α] (k : α) (v : β) :
    ∀ l : List (α × β), lookupA k l = some v → insertA k v l = l := by
  intro l
  induction l with
  | nil => intro hl; simp [lookupA] at hl
  | cons p rest ih =>
    intro hl
    by_cases h : p.1 = k
    · simp only [lookupA, if_pos h, Option.some.injEq] at hl
      simp only [insertA, if_pos h]
      rw [← h, ← hl]
    · simp only [lookupA, if_neg h] at hl
      simp only [insertA, if_neg h, ih hl]

theorem lookupA_eq_none {α β : Type} [DecidableEq α] (k : α) :
    ∀ l : List (α × β), k ∉ l.map Prod.fst → lookupA k l = none := by
  intro l
  induction l with
  | nil => intro _; rfl
  | cons p rest ih =>
    intro hk
    simp only [List.map_cons, List.mem_cons] at hk
    push_neg at hk
    have hne : ¬ p.1 = k := fun he => hk.1 he.symm
    simp only [lookupA, if_neg hne]
    exact ih hk.2

theorem lookupA_eraseA_self {α β : Type} [DecidableEq α] (k : α) :
    ∀ l : List (α × β), (l.map Prod.fst).Nodup → lookupA k (eraseA k l) = none := by
  intro l
  induction l with
  | nil => intro _; rfl
  | cons p rest ih =>
    intro hnd
    simp only [List.map_cons, List.nodup_cons] at hnd
    by_cases h : p.1 = k
    · simp only [eraseA, if_pos h]
      rw [← h]
      exact lookupA_eq_none p.1 rest hnd.1
    · simp only [eraseA, if_neg h, lookupA, if_neg h]
      exact ih hnd.2

/-! ## The claims -/

/-- C3 (claim right, code wrong): `add_blob` of a fresh 1024-byte blob with TTL
3600 at epoch 1 for a self-funded subscriber followed by `delete_blob` of the
same `(subscriber, id)` at the same epoch must return the account credits and
the global totals to their pre-add values.  The code instead takes the
else-branch of the delete accounting (since `last_debit_epoch = debit_epoch`),
computes `refund_blocks = last_debit_epoch − group_expiry = −3600`, wraps it
through `as u64`, and applies a refund of `(2^64 − 3600)·1024` credits:
`credit_committed` ends astronomically positive and `credit_debited`
negative, far from the pre-add zeros. -/
theorem claim_C3_same_epoch_delete_bug :
    exDelete.1 = .ok true ∧
    exStateBuy.creditCommitted = 0 ∧
    exStateBuy.creditDebited = 0 ∧
    (lookupA 0 exStateBuy.accounts).map Account.creditCommitted = some 0 ∧
    exDelete.2.creditCommitted = ((2 : Int) ^ 64 - 3600) * 1024 ∧
    exDelete.2.creditDebited = -(((2 : Int) ^ 64 - 3600) * 1024) ∧
    (lookupA 0 exDelete.2.accounts).map Account.creditCommitted =
      some (((2 : Int) ^ 64 - 3600) * 1024) := by
  decide

/-- C5 (claim right, code wrong): an `add_blob` call with `tokens_received = 5`
atto, no delegation, and `credit_free ≥ credit_required` succeeds without
minting credit but returns `tokens_unspent = 0`: the supplied tokens are kept
instead of being rebated in full (the spec says all tokens are returned, and
the sibling shortfall branch of `ensure_credit_or_buy` does rebate every
unneeded atto). -/
theorem claim_C5_full_rebate_bug :
    exAddTokens.1 = .ok ({ added := 1, expiry := 3601, autoRenew := false, source := 5, delegate := none, failed := false }, 0) ∧
    exAddTokens.2.creditSold = exStateBuy.creditSold ∧
    (0 : Int) ≠ 5 := by
  decide

/-- C2 counterexample: `add_blob` called with `origin ≠ subscriber` on the
fresh state returns a forbidden error (no approval exists), yet the state
after the call differs from the state before it: the subscriber's account was
created by `accounts.entry(..).or_insert(..)` before the approval lookup
failed. -/
theorem claim_C2_counterexample :
    (exState0.addBlob 1 1 0 5 7 70 .default 10 (some 3600) 3 0).1 =
      .error .forbidden ∧
    (exState0.addBlob 1 1 0 5 7 70 .default 10 (some 3600) 3 0).2 ≠ exState0 := by
  decide

theorem buyCredit_error_eq (s : State) (r : Addr) (amount : TokenAmount)
    (e : Epoch) (err : ErrorKind) (herr : (s.buyCredit r amount e).1 = .error err) :
    (s.buyCredit r amount e).2 = s := by
  unfold State.buyCredit at herr ⊢
  split at herr
  · rename_i hneg
    rw [if_pos hneg]
  · rename_i hneg
    dsimp only at herr ⊢
    split at herr
    · rename_i hcap
      rw [if_neg hneg, if_pos hcap]
    · exact absurd herr (by simp)

theorem approveCredit_error_eq (s : State) (f t : Addr) (rc : Option Addr)
    (e : Epoch) (l : Option Nat) (ttl : Option Epoch) (err : ErrorKind)
    (herr : (s.approveCredit f t rc e l ttl).1 = .error err) :
    (s.approveCredit f t rc e l ttl).2 = s := by
  unfold State.approveCredit at herr ⊢
  split at herr
  · rename_i httl
    rw [if_pos httl]
  · rename_i httl
    rw [if_neg httl]
    dsimp only at herr ⊢
    split at herr
    · rename_i hlim
      rw [if_pos hlim]
      dsimp only
      cases hA : lookupA f s.accounts with
      | none =>
        simp only [hA] at hlim
        cases l with
        | none => simp at hlim
        | some n =>
          simp [Account.new, lookupA, Option.any, Option.map] at hlim
          exact absurd hlim (by omega)
      | some acct =>
        simp only [hA] at hlim
        simp only [Option.getD_some] at hlim ⊢
        cases hI : lookupA t acct.approvals with
        | none =>
          simp only [hI] at hlim
          cases l with
          | none => simp at hlim
          | some n =>
            simp [lookupA, Option.any, Option.map] at hlim
            exact absurd hlim (by omega)
        | some inner =>
          simp only [hI] at hlim
          simp only [Option.getD_some] at hlim ⊢
          cases hap : lookupA (rc.getD t) inner with
          | none =>
            simp only [hap] at hlim
            cases l with
            | none => simp at hlim
            | some n =>
              simp [Option.any, Option.map] at hlim
              exact absurd hlim (by omega)
          | some ap =>
            simp only [Option.getD_some, insertA_self (rc.getD t) ap inner hap,
              insertA_self t inner acct.approvals hI]
            show s.putAccount f acct = s
            unfold State.putAccount
            rw [insertA_self f acct s.accounts hA]
    · exact absurd herr (by simp)

theorem revokeCredit_error_eq (s : State) (f t : Addr) (rc : Option Addr)
    (err : ErrorKind) (herr : (s.revokeCredit f t rc).1 = .error err) :
    (s.revokeCredit f t rc).2 = s := by
  unfold State.revokeCredit at herr ⊢
  split at herr
  · rfl
  · dsimp only at herr ⊢
    split at herr
    · exact absurd herr (by simp)
    · exact absurd herr (by simp)

theorem setBlobPending_never_errors (s : State) (sub : Addr) (hb : Hash)
    (id : SubscriptionId) (src : PublicKey) :
    (s.setBlobPending sub hb id src).1 = .ok () := by
  unfold State.setBlobPending
  split
  · rfl
  · rfl

/-- C2 (amended): error atomicity holds for `buy_credit`, `approve_credit` and
`revoke_credit`: whenever one of them returns an error, the state after the
call equals the state before it; and `set_blob_pending` never returns an
error.  (`add_blob`, `renew_blob`, `delete_blob` and `finalize_blob` can
mutate the state before returning an error — e.g. the auto-created subscriber
account of the counterexample — and `debit_accounts` is infallible by
construction.) -/
theorem claim_C2_error_atomicity (s : State) (r f t sub : Addr)
    (rc : Option Addr) (amount : TokenAmount) (e : Epoch) (l : Option Nat)
    (ttl : Option Epoch) (hb : Hash) (id : SubscriptionId) (src : PublicKey) :
    (∀ err, (s.buyCredit r amount e).1 = .error err →
      (s.buyCredit r amount e).2 = s) ∧
    (∀ err, (s.approveCredit f t rc e l ttl).1 = .error err →
      (s.approveCredit f t rc e l ttl).2 = s) ∧
    (∀ err, (s.revokeCredit f t rc).1 = .error err →
      (s.revokeCredit f t rc).2 = s) ∧
    (s.setBlobPending sub hb id src).1 = .ok () :=
  ⟨fun err herr => buyCredit_error_eq s r amount e err herr,
   fun err herr => approveCredit_error_eq s f t rc e l ttl err herr,
   fun err herr => revokeCredit_error_eq s f t rc err herr,
   setBlobPending_never_errors s sub hb id src⟩

/-- C2 witness: the amended theorem applied at a concrete erroring call —
`buy_credit` with a negative token amount leaves the fresh state unchanged. -/
theorem claim_C2_witness :
    ((State.new 5 1).buyCredit 0 (-1) 0).2 = State.new 5 1 :=
  (claim_C2_error_atomicity (State.new 5 1) 0 0 0 0 none (-1) 0 none none 0
    SubscriptionId.default 0).1 ErrorKind.illegalArgument (by decide)

/-- C8 counterexample: renewing a blob whose status is `Failed` fails with an
illegal-state error (`ActorError::illegal_state` in the source), not the
forbidden error the claim names. -/
theorem claim_C8_counterexample :
    (exStateFailed.renewBlob 0 10 7 .default).1 = .error .illegalState ∧
    ErrorKind.illegalState ≠ ErrorKind.forbidden := by
  decide

/-- C8 (amended): every `renew_blob` call targeting a blob whose status is
`Failed` fails with an illegal-state error and does not renew (the blob map is
left unchanged). -/
theorem claim_C8_renew_failed (s : State) (sub : Addr) (e : Epoch) (hb : Hash)
    (id : SubscriptionId) (blob : Blob) (hB : lookupA hb s.blobs = some blob)
    (hF : blob.status = .failed) :
    (s.renewBlob sub e hb id).1 = .error .illegalState ∧
    (s.renewBlob sub e hb id).2.blobs = s.blobs := by
  unfold State.renewBlob
  dsimp only
  simp only [hB]
  rw [if_pos hF]
  exact ⟨rfl, rfl⟩

/-- C8 witness: the amended theorem applied to the concrete failed blob. -/
theorem claim_C8_witness :
    (exStateFailed.renewBlob 0 10 7 .default).2.blobs = exStateFailed.blobs :=
  (claim_C8_renew_failed exStateFailed 0 10 7 .default exFailedBlob (by decide)
    (by decide)).2

/-- C9 counterexample: with the pending index already holding the triple
`(1, Default, 9)` for hash 7, `set_blob_pending(2, 7, Key [3], 11)` REPLACES
the pending entry with the singleton of the new triple — the previously
present triple is dropped, contradicting the claim that existing triples for
the hash are preserved. -/
theorem claim_C9_counterexample :
    (exStatePend.setBlobPending 2 7 (.key [3]) 11).1 = .ok () ∧
    lookupA 7 (exStatePend.setBlobPending 2 7 (.key [3]) 11).2.pending =
      some [(2, SubscriptionId.key [3], 11)] ∧
    ¬ (1, SubscriptionId.default, 9) ∈
      ((lookupA 7 (exStatePend.setBlobPending 2 7 (.key [3]) 11).2.pending).getD []) := by
  decide

/-- C9 (amended): `set_blob_pending(subscriber, hash, id, source)` is a no-op
returning Ok when the blob does not exist; otherwise it returns Ok, the blob's
status becomes `Pending`, the pending index entry for `hash` is REPLACED by
the singleton `{(subscriber, id, source)}` (`BTreeMap::insert` overwrites, so
triples already present for the hash are dropped), and the `hash` key is
removed from the added index entirely. -/
theorem claim_C9_set_blob_pending (s : State) (sub : Addr) (hb : Hash)
    (id : SubscriptionId) (src : PublicKey)
    (hnd : (s.added.map Prod.fst).Nodup) :
    (lookupA hb s.blobs = none → s.setBlobPending sub hb id src = (.ok (), s)) ∧
    (∀ blob, lookupA hb s.blobs = some blob →
      (s.setBlobPending sub hb id src).1 = .ok () ∧
      (lookupA hb (s.setBlobPending sub hb id src).2.blobs).map Blob.status =
        some .pending ∧
      lookupA hb (s.setBlobPending sub hb id src).2.pending =
        some [(sub, id, src)] ∧
      lookupA hb (s.setBlobPending sub hb id src).2.added = none) := by
  constructor
  · intro h0
    unfold State.setBlobPending
    simp only [h0]
  · intro blob hB
    unfold State.setBlobPending
    simp only [hB]
    refine ⟨by simp, ?_, ?_, ?_⟩
    · simp [lookupA_insertA_self]
    · simp [lookupA_insertA_self]
    · exact lookupA_eraseA_self hb s.added hnd

/-- C9 witness: the amended theorem applied to the concrete state of the
counterexample. -/
theorem claim_C9_witness :
    lookupA 7 (exStatePend.setBlobPending 2 7 (.key [3]) 11).2.pending =
      some [(2, SubscriptionId.key [3], 11)] :=
  ((claim_C9_set_blob_pending exStatePend 2 7 (.key [3]) 11 (by decide)).2
    { size := 10, metadataHash := 70, subscribers := [], status := .pending }
    (by decide)).2.2.1

/-- C10: for every blob whose status is `Resolved`, `set_blob_pending` sets
the status back to `Pending` and re-inserts the triple into the pending index
— there is no guard keeping a resolved blob resolved. -/
theorem claim_C10_resolved_downgrade (s : State) (sub : Addr) (hb : Hash)
    (id : SubscriptionId) (src : PublicKey) (blob : Blob)
    (hB : lookupA hb s.blobs = some blob) (_hR : blob.status = .resolved) :
    (lookupA hb (s.setBlobPending sub hb id src).2.blobs).map Blob.status =
      some .pending ∧
    lookupA hb (s.setBlobPending sub hb id src).2.pending =
      some [(sub, id, src)] := by
  unfold State.setBlobPending
  simp only [hB]
  constructor
  · simp [lookupA_insertA_self]
  · simp [lookupA_insertA_self]

/-- C10 witness: the theorem applied to a concrete resolved blob. -/
theorem claim_C10_witness :
    (lookupA 7 (exStateResolved.setBlobPending 0 7 .default 5).2.blobs).map
      Blob.status = some BlobStatus.pending ∧
    lookupA 7 (exStateResolved.setBlobPending 0 7 .default 5).2.pending =
      some [(0, SubscriptionId.default, 5)] :=
  claim_C10_resolved_downgrade exStateResolved 0 7 .default 5 exResolvedBlob
    (by decide) (by decide)

/-- C6 counterexample: with rate 2, `credit_free` 0, `credit_required` 3 and
only 1 atto received, the purchase SUCCEEDS — `needed_atto` is the flooring
quotient 3 / 2 = 1 ≤ 1 — minting the full 3-credit shortfall for 1 atto,
whereas the claim's ceiling ⌈3/2⌉ = 2 exceeds the 1 atto received and
predicts an `insufficient funds` failure. -/
theorem claim_C6_counterexample :
    ensureCreditOrBuy 0 0 3 1 2 10 none = .ok (3, 3, 0) ∧
    ¬ ((2 : Int) ≤ 1) := by
  decide

/-- C6 (amended): for `tokens_received ≠ 0`, no delegation and
`credit_free < credit_required`, the purchase succeeds iff
`tokens_received ≥ needed_atto` where `needed_atto` is the FLOORING quotient
`(credit_required − credit_free) / credit_debit_rate` (not the ceiling the
claim states); on success it mints the full credit shortfall (bringing
`credit_free` to exactly `credit_required`), increments `credit_sold` by
the same amount, and returns `tokens_received − needed_atto`. -/
theorem claim_C6_inline_purchase (f so cr : Int) (tok : TokenAmount)
    (rate : Nat) (e : Epoch) (htok : tok ≠ 0) (hshort : f < cr) :
    ((cr - f) / (rate : Int) ≤ tok →
      ensureCreditOrBuy f so cr tok rate e none =
        .ok (cr, so + (cr - f), tok - (cr - f) / (rate : Int))) ∧
    (tok < (cr - f) / (rate : Int) →
      ensureCreditOrBuy f so cr tok rate e none = .error .insufficientFunds) := by
  constructor
  · intro hle
    unfold ensureCreditOrBuy
    rw [if_pos htok]
    dsimp only
    rw [if_pos hshort, if_pos hle, show f + (cr - f) = cr from by ring]
  · intro hlt
    unfold ensureCreditOrBuy
    rw [if_pos htok]
    dsimp only
    rw [if_pos hshort, if_neg (not_le.mpr hlt)]

/-- C6 witness: rate 2, free 1, required 4, 5 atto received: `needed_atto` is
⌊3/2⌋ = 1, so the purchase succeeds, minting 3 credits and rebating 4 atto. -/
theorem claim_C6_witness :
    ensureCreditOrBuy 1 0 4 5 2 10 none = .ok (4, 0 + (4 - 1), 5 - (4 - 1) / 2) :=
  (claim_C6_inline_purchase 1 0 4 5 2 10 (by decide) (by decide)).1 (by decide)

theorem runDebitLoop_map (e : Epoch) :
    ∀ (l : List (Addr × Account)) (t : Int),
      (∀ p ∈ l, p.2.lastDebitEpoch ≤ e ∧ e - p.2.lastDebitEpoch < 2 ^ 64) →
      (runDebitLoop e l t).1 =
        l.map (fun p => (p.1, { p.2 with
          creditCommitted := p.2.creditCommitted -
            (e - p.2.lastDebitEpoch) * p.2.capacityUsed,
          lastDebitEpoch := e })) ∧
      (runDebitLoop e l t).2 =
        t + (l.map (fun p => (e - p.2.lastDebitEpoch) * p.2.capacityUsed)).sum := by
  intro l
  induction l with
  | nil => intro t _; simp [runDebitLoop]
  | cons p rest ih =>
    obtain ⟨pk, pa⟩ := p
    intro t hl
    have hp := hl (pk, pa) (List.mem_cons_self _ _)
    have hrest := ih (t + asU64 (e - pa.lastDebitEpoch) * pa.capacityUsed)
      (fun q hq => hl q (List.mem_cons_of_mem _ hq))
    have hcast : asU64 (e - pa.lastDebitEpoch) = e - pa.lastDebitEpoch := by
      unfold asU64
      exact Int.emod_eq_of_lt (by linarith [hp.1]) hp.2
    rw [hcast] at hrest
    simp only [runDebitLoop, List.map_cons, List.sum_cons, hcast]
    refine ⟨?_, ?_⟩
    · rw [hrest.1]
    · rw [hrest.2]; ring

/-- C7 counterexample: on a tick whose expiry snapshot is non-empty the
claimed per-entry-state charge fails.  In `exRef1` account 0 has
`last_debit_epoch` 1, `capacity_used` 1024 and the global `credit_debited` is
0, so the claim predicts (3700 − 1)·1024 = 3787776 moved into
`credit_debited` by `debit_accounts 3700`; but the first pass deletes the
expired blob first (debiting only up to its expiry 3601 and releasing the
capacity), so `credit_debited` actually ends at 3600·1024 = 3686400. -/
theorem claim_C7_counterexample :
    exRef1.creditDebited = 0 ∧
    (lookupA 0 exRef1.accounts).map Account.lastDebitEpoch = some 1 ∧
    (lookupA 0 exRef1.accounts).map Account.capacityUsed = some 1024 ∧
    (exRef1.debitAccounts 3700).2.creditDebited = 3686400 ∧
    (3686400 : Int) ≠ 0 + (3700 - 1) * 1024 := by
  decide

/-- C7 (amended): for EVERY `debit_accounts(epoch)` call — whatever the
expiry index holds — the charge of the second pass is measured against the
state the first pass leaves behind: writing `s₁` for the state after the due
expiry buckets are processed (auto-renew subscriptions renewed, the rest
deleted), every account of `s₁`, including zero-capacity ones, has
(epoch − last_debit_epoch) × capacity_used moved from committed to debited
at the account and the global level and its `last_debit_epoch` set to
`epoch`, while `credit_sold` and the blob map are untouched by the second
pass; the returned hashes are the ones the first pass deleted. -/
theorem claim_C7_debit_accounts (s : State) (e : Epoch)
    (hacct : ∀ p ∈ (debitFirstPass s e).1.accounts,
      p.2.lastDebitEpoch ≤ e ∧ e - p.2.lastDebitEpoch < 2 ^ 64) :
    (s.debitAccounts e).2.accounts =
      (debitFirstPass s e).1.accounts.map (fun p => (p.1, { p.2 with
        creditCommitted := p.2.creditCommitted -
          (e - p.2.lastDebitEpoch) * p.2.capacityUsed,
        lastDebitEpoch := e })) ∧
    (s.debitAccounts e).2.creditDebited = (debitFirstPass s e).1.creditDebited +
      ((debitFirstPass s e).1.accounts.map
        (fun p => (e - p.2.lastDebitEpoch) * p.2.capacityUsed)).sum ∧
    (s.debitAccounts e).2.creditCommitted = (debitFirstPass s e).1.creditCommitted -
      ((debitFirstPass s e).1.accounts.map
        (fun p => (e - p.2.lastDebitEpoch) * p.2.capacityUsed)).sum ∧
    (s.debitAccounts e).2.creditSold = (debitFirstPass s e).1.creditSold ∧
    (s.debitAccounts e).2.blobs = (debitFirstPass s e).1.blobs ∧
    (s.debitAccounts e).1 = (debitFirstPass s e).2 := by
  have hmap := runDebitLoop_map e (debitFirstPass s e).1.accounts 0 hacct
  unfold State.debitAccounts
  dsimp only
  refine ⟨hmap.1, ?_, ?_, by trivial, by trivial, by trivial⟩
  · rw [hmap.2]; ring
  · rw [hmap.2]; ring

/-- C7 witness: the amended theorem at `exRef1` with a due expiry bucket at
3601: the first pass deletes blob 7, leaving account 0 with capacity 0 and
last debit 3601, and the second pass then charges (3700 − 3601)·0 = 0. -/
theorem claim_C7_witness :
    (exRef1.debitAccounts 3700).2.creditDebited =
      (debitFirstPass exRef1 3700).1.creditDebited +
      ((debitFirstPass exRef1 3700).1.accounts.map
        (fun p => (3700 - p.2.lastDebitEpoch) * p.2.capacityUsed)).sum :=
  (claim_C7_debit_accounts exRef1 3700 (by decide)).2.1

/-- C4 counterexample: in the stale-debit scenario blob 7's group expiry is
3601, the account's `last_debit_epoch` is 3611 and the third add runs at epoch
3621.  The claim's rebate is (3611 − 3601)·1024 = 10240 and the proactive
debit is (3621 − 3611)·3072 = 30720, predicting `credit_debited` =
3696640 + 30720 − 10240 = 3717120; the code actually rebates
(current_epoch − group_expiry)·size = 20·1024 = 20480, landing on 3706880. -/
theorem claim_C4_counterexample :
    exRef2.creditDebited = 3696640 ∧
    exRef3.creditDebited = 3706880 ∧
    (3706880 : Int) ≠ 3696640 + 30720 - 10240 := by
  decide

/-- C4 (amended): for a self-funded `add_blob` on an existing subscription
group whose group expiry `ge` is older than the account's `last_debit_epoch`,
the rebate applied to `credit_debited`, `credit_committed` and the account's
`credit_committed` is (current_epoch − group_expiry) × size — NOT the
(last_debit_epoch − group_expiry) × size the claim states — and it is
composed with the proactive debit (current_epoch − last_debit_epoch) ×
capacity_used and the newly committed credit. -/
theorem claim_C4_stale_refund (s : State) (c k : Addr) (e : Epoch)
    (hb mh : Hash) (id : SubscriptionId) (sz : Nat) (ttl : Option Epoch)
    (src : PublicKey) (tok : TokenAmount) (ttlv : Epoch) (ar : Bool)
    (acct : Account) (blob : Blob) (group : SubscriptionGroup)
    (ge nge : Epoch) (res : Subscription × TokenAmount)
    (hT : acceptTtl ttl = .ok (ttlv, ar))
    (hA : lookupA k s.accounts = some acct)
    (hB : lookupA hb s.blobs = some blob)
    (hG : lookupA k blob.subscribers = some group)
    (hme : group.maxExpiries id (some (e + ttlv)) = (some ge, some nge))
    (hstale : ge < acct.lastDebitEpoch)
    (hle : acct.lastDebitEpoch ≤ e)
    (hbound : e - ge < 2 ^ 64)
    (hbound2 : e - acct.lastDebitEpoch < 2 ^ 64)
    (hok : (s.addBlob k c k e hb mh id sz ttl src tok).1 = .ok res) :
    (s.addBlob k c k e hb mh id sz ttl src tok).2.creditDebited =
      s.creditDebited - (e - ge) * (sz : Int) +
        (e - acct.lastDebitEpoch) * acct.capacityUsed ∧
    (s.addBlob k c k e hb mh id sz ttl src tok).2.creditCommitted =
      s.creditCommitted + (e - ge) * (sz : Int) -
        (e - acct.lastDebitEpoch) * acct.capacityUsed +
        asU64 (nge - max ge e) * (sz : Int) ∧
    (lookupA k (s.addBlob k c k e hb mh id sz ttl src tok).2.accounts).map
        Account.creditCommitted =
      some (acct.creditCommitted + (e - ge) * (sz : Int) -
        (e - acct.lastDebitEpoch) * acct.capacityUsed +
        asU64 (nge - max ge e) * (sz : Int)) := by
  have hc1 : asU64 (e - ge) = e - ge := by
    unfold asU64; exact Int.emod_eq_of_lt (by linarith) hbound
  have hc2 : asU64 (e - acct.lastDebitEpoch) = e - acct.lastDebitEpoch := by
    unfold asU64; exact Int.emod_eq_of_lt (by linarith) hbound2
  unfold State.addBlob at hok ⊢
  simp only [hT, hA, Option.getD_some, eq_self_iff_true, if_true, ite_true,
    hB, hG, hme, hstale, Option.map_none'] at hok ⊢
  cases hbuy : ensureCreditOrBuy acct.creditFree s.creditSold
      (asU64 (nge - max ge e) * (sz : Int)) tok s.creditDebitRate e none with
  | error err =>
    simp only [hbuy] at hok
    exact absurd hok (by simp)
  | ok trip =>
    obtain ⟨f2, so2, tu⟩ := trip
    simp only [hbuy] at hok ⊢
    cases hsub : lookupA id group.subscriptions with
    | some sub0 =>
      simp only [hsub] at hok ⊢
      simp only [State.addBlobCommit, State.putAccount]
      refine ⟨by rw [hc1, hc2], by rw [hc1, hc2], ?_⟩
      rw [lookupA_insertA_self]
      simp only [Option.map_some']
      rw [hc1, hc2]
    | none =>
      simp only [hsub] at hok ⊢
      simp only [State.addBlobCommit, State.putAccount]
      refine ⟨by rw [hc1, hc2], by rw [hc1, hc2], ?_⟩
      rw [lookupA_insertA_self]
      simp only [Option.map_some']
      rw [hc1, hc2]

/-- C4 witness: the amended theorem at the concrete stale-debit state: group
expiry 3601, last debit 3611, epoch 3621, size 1024 — the rebate is 20·1024. -/
theorem claim_C4_witness :
    (exC4State.addBlob 0 0 0 3621 7 70 .default 1024 none 6 0).2.creditDebited =
      exC4State.creditDebited - (3621 - 3601) * ((1024 : Nat) : Int) +
        (3621 - exC4Acct.lastDebitEpoch) * exC4Acct.capacityUsed ∧
    (exC4State.addBlob 0 0 0 3621 7 70 .default 1024 none 6 0).2.creditCommitted =
      exC4State.creditCommitted + (3621 - 3601) * ((1024 : Nat) : Int) -
        (3621 - exC4Acct.lastDebitEpoch) * exC4Acct.capacityUsed +
        asU64 (7221 - max 3601 3621) * ((1024 : Nat) : Int) ∧
    (lookupA 0 (exC4State.addBlob 0 0 0 3621 7 70 .default 1024 none 6 0).2.accounts).map
        Account.creditCommitted =
      some (exC4Acct.creditCommitted + (3621 - 3601) * ((1024 : Nat) : Int) -
        (3621 - exC4Acct.lastDebitEpoch) * exC4Acct.capacityUsed +
        asU64 (7221 - max 3601 3621) * ((1024 : Nat) : Int)) :=
  claim_C4_stale_refund exC4State 0 0 3621 7 70 .default 1024 none 6 0 3600 true
    exC4Acct exC4Blob exC4Group 3601 7221
    ({ added := 1, expiry := 7221, autoRenew := true, source := 6,
       delegate := none, failed := false }, 0)
    (by decide) (by decide) (by decide) (by decide) (by decide) (by decide)
    (by decide) (by decide) (by decide) (by decide)

end BlobsActor
